import Mathlib

/-!
Verification of the svelte-image rewrite engine (`src/main.js`) against its
natural-language specification.

The JavaScript source is shallowly embedded below.  Document text is modelled
as `List Char` (JS strings indexed by code unit); machine numbers as `Nat`/`Int`
(`offset` can be negative, so it is `Int`).  External collaborators (the
filesystem, the `sharp` backend, `axios`, the svelte parser, the `path` module)
are modelled as explicit function parameters ("oracles") or small faithful
models, as noted at each definition.  Fallible asynchronous code is modelled
with `Except String`: a JS rejected promise / thrown error is `.error`.
-/

namespace SvelteImage

/-- JS `haystack.includes(needle)` on strings, modelled on `List Char`. -/
def containsSubstr : List Char → List Char → Bool
  | [], needle => needle.isEmpty
  | c :: cs, needle => needle.isPrefixOf (c :: cs) || containsSubstr cs needle

/-- JS `String.prototype.replace` with a *string* pattern: replaces only the
first (leftmost) occurrence of `needle`; if `needle` does not occur, the
string is returned unchanged.  (Used by `srcsetLineWebp`, `main.js:383-387`.) -/
def replaceFirst (needle repl : List Char) : List Char → List Char
  | [] => []
  | c :: cs =>
    if needle.isPrefixOf (c :: cs) then repl ++ (c :: cs).drop needle.length
    else c :: replaceFirst needle repl cs

/-- String wrapper for `replaceFirst`. -/
def replaceFirstS (s needle repl : String) : String :=
  ⟨replaceFirst needle.data repl.data s.data⟩

/-- JS `s.toLowerCase()` (ASCII-faithful, which covers all extension strings
the program compares). -/
def strToLower (s : String) : String := ⟨s.data.map Char.toLower⟩

/-- JS `s.split(sep)` for a one-character separator (the program only splits
on `"."` and `"/"`), structurally recursive so concrete instances evaluate
in the kernel. -/
def splitOnChar (sep : Char) : List Char → List (List Char)
  | [] => [[]]
  | c :: cs =>
    match splitOnChar sep cs with
    | [] => [[]]
    | h :: t => if c == sep then [] :: h :: t else (c :: h) :: t

/-- String wrapper for `splitOnChar`. -/
def strSplitChar (s : String) (sep : Char) : List String :=
  (splitOnChar sep s.data).map (fun l => ⟨l⟩)

/-- JS `s.startsWith(p)`. -/
def strStartsWith (s p : String) : Bool := p.data.isPrefixOf s.data

/-- JS `s.endsWith(p)`. -/
def strEndsWith (s p : String) : Bool := p.data.isSuffixOf s.data

/-! ## Text Patcher (`insert`, `main.js:301-307`)

```js
function insert(content, value, start, end, offset) {
  return {
    content:
      content.substr(0, start + offset) + value + content.substr(end + offset),
    offset: offset + value.length - (end - start),
  };
}
```

`content.substr(0, n)` is `take n` and `content.substr(m)` is `drop m` for
in-range non-negative indices (the regime of every theorem below); the
`.toNat` clamping matches JS clamping of a negative length to the empty
string for `substr(0, n)`. -/

/-- The Text Patcher's `insert` operation (`main.js:301-307`). -/
def insert (content value : List Char) (start stop : Nat) (offset : Int) :
    List Char × Int :=
  (content.take ((start : Int) + offset).toNat ++ value ++
      content.drop ((stop : Int) + offset).toNat,
   offset + value.length - ((stop : Int) - (start : Int)))

/-- An edit in original-document coordinates (spec §3 `EditOperation`;
`stop` is the exclusive `end` of the JS source — `end` is a Lean keyword). -/
structure EditOperation where
  start : Nat
  stop : Nat
  value : List Char
deriving DecidableEq, Repr

/-- The signed length change contributed by one edit:
`len(replacement) - (end - start)`. -/
def editDelta (e : EditOperation) : Int :=
  (e.value.length : Int) - ((e.stop : Int) - (e.start : Int))

/-- Sequential application of edits through `insert`, threading the
`(content, offset)` pair exactly as the reduce in `replaceImages`
(`main.js:523-532`) does, starting from offset `0`. -/
def applyEdits (content : List Char) (edits : List EditOperation) :
    List Char × Int :=
  edits.foldl (fun ed e => insert ed.1 e.value e.start e.stop ed.2) (content, 0)

section InsertLemmas

variable {c v : List Char} {s t : Nat} {o : Int}

lemma insert_toNat_le (_h0 : 0 ≤ (s : Int) + o) (hst : s ≤ t) :
    ((s : Int) + o).toNat ≤ ((t : Int) + o).toNat := by
  apply Int.toNat_le_toNat
  omega

lemma insert_before_start (h0 : 0 ≤ (s : Int) + o) (hst : s ≤ t)
    (hlen : ((t : Int) + o).toNat ≤ c.length) :
    (insert c v s t o).1.take ((s : Int) + o).toNat =
      c.take ((s : Int) + o).toNat := by
  have h1 : ((s : Int) + o).toNat ≤ c.length :=
    le_trans (insert_toNat_le h0 hst) hlen
  have hl : (c.take (((s : Int) + o).toNat)).length = ((s : Int) + o).toNat := by
    simp [List.length_take, Nat.min_eq_left h1]
  calc (insert c v s t o).1.take ((s : Int) + o).toNat
      = ((c.take (((s : Int) + o).toNat)) ++
          (v ++ c.drop (((t : Int) + o).toNat))).take
            ((c.take (((s : Int) + o).toNat)).length) := by
        simp [insert, hl]
    _ = c.take ((s : Int) + o).toNat := List.take_left _ _

lemma insert_middle (h0 : 0 ≤ (s : Int) + o) (hst : s ≤ t)
    (hlen : ((t : Int) + o).toNat ≤ c.length) :
    ((insert c v s t o).1.drop ((s : Int) + o).toNat).take v.length = v := by
  have h1 : ((s : Int) + o).toNat ≤ c.length :=
    le_trans (insert_toNat_le h0 hst) hlen
  have hl : (c.take (((s : Int) + o).toNat)).length = ((s : Int) + o).toNat := by
    simp [List.length_take, Nat.min_eq_left h1]
  have hdrop : (insert c v s t o).1.drop ((s : Int) + o).toNat =
      v ++ c.drop (((t : Int) + o).toNat) := by
    calc (insert c v s t o).1.drop ((s : Int) + o).toNat
        = ((c.take (((s : Int) + o).toNat)) ++
            (v ++ c.drop (((t : Int) + o).toNat))).drop
              ((c.take (((s : Int) + o).toNat)).length) := by
          simp [insert, hl]
      _ = v ++ c.drop (((t : Int) + o).toNat) := List.drop_left _ _
  rw [hdrop]
  exact List.take_left _ _

lemma insert_suffix (h0 : 0 ≤ (s : Int) + o) (hst : s ≤ t)
    (hlen : ((t : Int) + o).toNat ≤ c.length) :
    (insert c v s t o).1.drop (((s : Int) + o).toNat + v.length) =
      c.drop (((t : Int) + o).toNat) := by
  have h1 : ((s : Int) + o).toNat ≤ c.length :=
    le_trans (insert_toNat_le h0 hst) hlen
  have hl : ((c.take (((s : Int) + o).toNat)) ++ v).length =
      ((s : Int) + o).toNat + v.length := by
    simp [List.length_take, Nat.min_eq_left h1]
  calc (insert c v s t o).1.drop (((s : Int) + o).toNat + v.length)
      = (((c.take (((s : Int) + o).toNat)) ++ v) ++
          c.drop (((t : Int) + o).toNat)).drop
            (((c.take (((s : Int) + o).toNat)) ++ v).length) := by
        simp [insert, hl, List.append_assoc]
    _ = c.drop (((t : Int) + o).toNat) := List.drop_left _ _

lemma insert_length (h0 : 0 ≤ (s : Int) + o) (hst : s ≤ t)
    (hlen : ((t : Int) + o).toNat ≤ c.length) :
    ((insert c v s t o).1.length : Int) =
      (c.length : Int) + v.length - ((t : Int) - (s : Int)) := by
  have h0t : 0 ≤ (t : Int) + o := by omega
  have hs : (((s : Int) + o).toNat : Int) = (s : Int) + o :=
    Int.toNat_of_nonneg h0
  have ht : (((t : Int) + o).toNat : Int) = (t : Int) + o :=
    Int.toNat_of_nonneg h0t
  have h1 : ((s : Int) + o).toNat ≤ c.length :=
    le_trans (insert_toNat_le h0 hst) hlen
  have : (insert c v s t o).1.length =
      ((s : Int) + o).toNat + v.length +
        (c.length - ((t : Int) + o).toNat) := by
    simp [insert, List.length_take, List.length_drop, Nat.min_eq_left h1]
    omega
  rw [this]
  push_cast [Nat.cast_sub hlen]
  omega

lemma insert_offset :
    (insert c v s t o).2 = o + v.length - ((t : Int) - (s : Int)) := rfl

end InsertLemmas

/-- Invariant of the sequential fold of `insert` over a sorted,
non-overlapping, in-bounds edit list: the running text length always equals
the original length plus the running offset, and the final offset is the sum
of the per-edit deltas. -/
lemma foldl_insert_spec :
    ∀ (edits : List EditOperation) (c : List Char) (o : Int) (L : Nat),
      (c.length : Int) = (L : Int) + o →
      (∀ e ∈ edits, e.start ≤ e.stop ∧ e.stop ≤ L) →
      edits.Chain' (fun a b => a.stop ≤ b.start) →
      (∀ e₀ ∈ edits.head?, 0 ≤ (e₀.start : Int) + o) →
      (((edits.foldl (fun ed e => insert ed.1 e.value e.start e.stop ed.2)
          (c, o)).1.length : Int) =
        (L : Int) + o + (edits.map editDelta).sum) ∧
      ((edits.foldl (fun ed e => insert ed.1 e.value e.start e.stop ed.2)
          (c, o)).2 = o + (edits.map editDelta).sum)
  | [], c, o, L, hlen, _, _, _ => by
      refine ⟨?_, ?_⟩ <;> simp [hlen]
  | e :: es, c, o, L, hlen, hbnd, hchain, hhead => by
      obtain ⟨hse, hte⟩ := hbnd e (List.mem_cons_self e es)
      have h0 : 0 ≤ (e.start : Int) + o := hhead e rfl
      have h0t : 0 ≤ (e.stop : Int) + o := by
        have := hse; omega
      have hlen2 : ((e.stop : Int) + o).toNat ≤ c.length := by
        have hto : (((e.stop : Int) + o).toNat : Int) ≤ (c.length : Int) := by
          rw [Int.toNat_of_nonneg h0t, hlen]
          exact_mod_cast by omega
        exact_mod_cast hto
      have hlen' : (((insert c e.value e.start e.stop o).1.length : Int)) =
          (L : Int) + (insert c e.value e.start e.stop o).2 := by
        rw [insert_length h0 hse hlen2, insert_offset, hlen]
        omega
      obtain ⟨hc1, hc2⟩ := List.chain'_cons'.mp hchain
      have hhead' : ∀ e₁ ∈ es.head?,
          0 ≤ (e₁.start : Int) + (insert c e.value e.start e.stop o).2 := by
        intro e₁ h₁
        have hrel : e.stop ≤ e₁.start := hc1 e₁ h₁
        rw [insert_offset]
        have hv : (0 : Int) ≤ e.value.length := Int.ofNat_nonneg _
        omega
      have hbnd' : ∀ e' ∈ es, e'.start ≤ e'.stop ∧ e'.stop ≤ L :=
        fun e' h => hbnd e' (List.mem_cons_of_mem _ h)
      have ih := foldl_insert_spec es
        (insert c e.value e.start e.stop o).1
        (insert c e.value e.start e.stop o).2 L hlen' hbnd' hc2 hhead'
      constructor
      · rw [List.foldl_cons]
        rw [ih.1, List.map_cons, List.sum_cons, insert_offset, editDelta]
        omega
      · rw [List.foldl_cons]
        rw [ih.2, List.map_cons, List.sum_cons, insert_offset, editDelta]
        omega

/-! ## Markup data model (svelte AST, as consumed by `main.js`)

The svelte parser is an external collaborator (spec §1, §6).  The engine only
reads, per node: `type`, `name`, and the `attributes` array, whose entries
carry a `name` and a `value` array of descriptors with `type`, `data`,
`start`, `end`.  A dynamic descriptor has `type` `"MustacheTag"` or
`"AttributeShorthand"` and no usable `data`.  The JS empty object `{}` is an
"empty value descriptor": `type` and `data` are `undefined` (here `none`);
its absent `start`/`end` are modelled as `0` (they are never read on the
blank-src path). -/

/-- An attribute-value descriptor (`stop` is the JS `end` field). -/
structure AttrValue where
  type : Option String
  data : Option String
  start : Nat
  stop : Nat
deriving DecidableEq, Repr

/-- The empty value descriptor `{}` manufactured by `getSrc`. -/
def emptyValue : AttrValue := ⟨none, none, 0, 0⟩

/-- A markup attribute. -/
structure Attr where
  name : String
  value : List AttrValue
deriving DecidableEq, Repr

/-- A markup node, restricted to the fields the engine reads.  A missing
`attributes` field (`node.attributes || []` in `getProp`) is `none`. -/
structure Node where
  type : String
  name : String
  attributes : Option (List Attr)
deriving DecidableEq, Repr

/-- Function `getProp` (`main.js:153-156`):
`(node.attributes || []).find(a => a.name === attr)`, yielding the found
attribute's `value` or `undefined`. -/
def getProp (node : Node) (attr : String) : Option (List AttrValue) :=
  ((node.attributes.getD []).find? (fun a => a.name == attr)).map (·.value)

/-- Function `getSrc` (`main.js:158-165`): `getProp(node, "src") || [{}]`.  (The JS
`try`/`catch` around it can never fire — `getProp` is total — and `prop.value`
is an array, which is truthy even when empty, so `|| [{}]` triggers exactly
when `getProp` returns `undefined`.) -/
def getSrc (node : Node) : List AttrValue :=
  (getProp node "src").getD [emptyValue]

/-- Pattern `IS_EXTERNAL` (`main.js:169`): `/^(https?:)?\/\//i` — an optional
case-insensitive `http:`/`https:` scheme followed by `//`, anchored at the
start. -/
def isExternal (s : String) : Bool :=
  strStartsWith s "//" || strStartsWith (strToLower s) "http://" ||
    strStartsWith (strToLower s) "https://"

/-- Function `fileHasCorrectExtension` (`main.js:180-186`): empty allow-list accepts
everything; otherwise the lowercased last `"."`-segment
(`filename.split(".").pop().toLowerCase()`) must be a member of the
lowercased allow-list. -/
def fileHasCorrectExtension (filename : String) (extensions : List String) :
    Bool :=
  if extensions.length == 0 then true
  else (extensions.map strToLower).contains
    (strToLower ((strSplitChar filename '.').getLast!))

/-- The configuration options the embedded core reads (`main.js:9-62`);
encoder parameters consumed only by the external backend are omitted. -/
structure Options where
  optimizeAll : Bool
  imgTagExtensions : List String
  componentExtensions : List String
  tagName : String
  sizes : List Nat
  breakpoints : List Nat
  outputDir : String
  publicDir : String
  sourceDir : String
  webp : Bool
  optimizeRemote : Bool

/-! ### Model of the node `path` collaborator (POSIX, no `..`/`.` input) -/

/-- Model of `path.join(a, b)`: one separator between the parts. -/
def pjoin (a b : String) : String :=
  if a == "" then b
  else (if strEndsWith a "/" then a.dropRight 1 else a) ++ "/" ++ b

/-- Model of `path.basename(p)`: the last `/`-segment. -/
def pbasename (p : String) : String := (strSplitChar p '/').getLast!

/-- Model of `path.extname(p)`: from the last `.` of the basename to the end;
empty when the basename has no dot or only a leading dot. -/
def pextname (p : String) : String :=
  let parts := strSplitChar (pbasename p) '.'
  if parts.length ≤ 1 then ""
  else if parts.head! == "" && parts.length == 2 then ""
  else "." ++ parts.getLast!

/-- Model of `path.dirname(p)`: everything before the last `/`, or `"."`. -/
def pdirname (p : String) : String :=
  let parts := strSplitChar p '/'
  if parts.length ≤ 1 then "." else String.intercalate "/" parts.dropLast

/-- Model of `path.resolve(dir, v)`: `v` when absolute, otherwise `v` joined
under `dir` (normalization and the process working directory are not
modelled; the engine only compares these strings through the filesystem
oracle). -/
def presolve (dir v : String) : String :=
  if strStartsWith v "/" then v else dir ++ "/" ++ v

/-- Function `getBasename` (`main.js:281-283`): `path.basename(p, path.extname(p))`,
i.e. the basename with its extension suffix removed. -/
def getBasename (p : String) : String :=
  (pbasename p).dropRight (pextname p).length

/-- Function `getFilenameWithSize` (`main.js:289-291`). -/
def getFilenameWithSize (p : String) (size : Nat) : String :=
  getBasename p ++ "-" ++ toString size ++ pextname p

/-- Function `getWebpFilenameWithSize` (`main.js:293-295`). -/
def getWebpFilenameWithSize (p : String) (size : Nat) : String :=
  getBasename p ++ "-" ++ toString size ++ ".webp"

/-- The per-size output locations (`getResizePaths` in `getPathsObject`). -/
structure ResizePaths where
  outPath : String
  outUrl : String
  outPathWebp : String
deriving DecidableEq, Repr

/-- The `ResolvedPath` record built by `getPathsObject` (`main.js:95-115`). -/
structure Paths where
  inPath : String
  outDir : String
  outPath : String
  outUrl : String
  getResizePaths : Nat → ResizePaths

/-- Function `getPathsObject` (`main.js:95-115`). -/
def getPathsObject (opts : Options) (nodeSrc : String) : Paths :=
  let inPath := nodeSrc
  let outDir := presolve opts.publicDir opts.outputDir
  let filename := pbasename inPath
  let outUrl := pjoin opts.outputDir filename
  { inPath := inPath
    outDir := outDir
    outPath := pjoin outDir filename
    outUrl := outUrl
    getResizePaths := fun size =>
      { outPath := pjoin outDir (getFilenameWithSize inPath size)
        outUrl := pjoin (pdirname outUrl) (getFilenameWithSize inPath size)
        outPathWebp := pjoin outDir (getWebpFilenameWithSize inPath size) } }

/-- Record `ProcessingDecision` (spec §3): the record returned by `willNotProcess` /
`willProcess` (`main.js:188-206`). -/
structure Decision where
  willNotProcess : Bool
  reason : Option String
  paths : Option Paths

/-- Function `willNotProcess(reason)` (`main.js:188-194`). -/
def willNotProcessD (reason : String) : Decision :=
  ⟨true, some reason, none⟩

/-- Function `willProcess(nodeSrc)` (`main.js:196-206`).  The `fs.writeFileSync` copy
of the source file into the output area is a side effect on the filesystem
collaborator and carries no data into the returned record. -/
def willProcessD (opts : Options) (nodeSrc : String) : Decision :=
  ⟨false, none, some (getPathsObject opts nodeSrc)⟩

/-- Function `downloadImage` (`main.js:64-93`), over collaborator oracles:
`existing` is the `fs.readdirSync(folder).find(e => e.startsWith(hash))`
cache scan, `contentType` the `HEAD` response's `content-type`, `hash` the
sha1 of the URL.  Returns the local filename, or `none` when the declared
content type is not an image (`type !== "image"`).  A thrown network error is
handled at the call site (`.catch` in `getProcessingPathsForNode`), so the
oracle-level model is total. -/
def downloadImage (existing : Option String) (contentType : String)
    (hash : String) : Option String :=
  match existing with
  | some e => some e
  | none =>
    let parts := strSplitChar contentType '/'
    if parts.head! != "image" then none
    else some (hash ++ "." ++ (parts[1]?.getD ""))

/-- Local-file tail of `getProcessingPathsForNode` (`main.js:267-278`):
resolve against the consuming file's directory, then against the source
root; first existing file wins, otherwise the "does not exist" skip.
`existsFs` models `fs.existsSync`. -/
def resolveLocal (opts : Options) (existsFs : String → Bool)
    (parentDir d : String) : Decision :=
  let relativeToParent := presolve parentDir d
  let relativeToSource := presolve opts.sourceDir d
  if existsFs relativeToParent then willProcessD opts relativeToParent
  else if existsFs relativeToSource then willProcessD opts relativeToSource
  else willNotProcessD ("The image file does not exist: " ++ relativeToSource)

/-- Function `getProcessingPathsForNode` (`main.js:208-279`).  `dl url` is the value of
`await downloadImage(url, options.sourceDir).catch(() => null)` — `none` for
a non-image response or a caught fetch failure.  Note (faithful to the
source): in the external branch the downloaded filename bound to
`removedDomainSlash` is never used afterwards — resolution continues against
`value.data`, the raw URL. -/
def getProcessingPathsForNode (opts : Options) (dl : String → Option String)
    (existsFs : String → Bool) (node : Node) (parentDir : String) : Decision :=
  let value := (getSrc node).headD emptyValue
  if value.type == some "MustacheTag" || value.type == some "AttributeShorthand" then
    willNotProcessD ("Cannot process a dynamic value: " ++ value.type.getD "")
  else
    match value.data with
    | none => willNotProcessD "The `src` is blank"
    | some d =>
      if d == "" then willNotProcessD "The `src` is blank"
      else if node.name == "img" &&
          !(fileHasCorrectExtension d opts.imgTagExtensions) then
        willNotProcessD ("The <img> tag was passed a file (" ++ d ++
          ") whose extension is not one of " ++
          String.intercalate ", " opts.imgTagExtensions)
      else if node.name == opts.tagName &&
          !(fileHasCorrectExtension d opts.componentExtensions) then
        willNotProcessD ("The " ++ opts.tagName ++
          " component was passed a file (" ++ d ++
          ") whose extension is not one of " ++
          String.intercalate ", " opts.componentExtensions)
      else if isExternal d then
        if !opts.optimizeRemote then
          willNotProcessD ("The `src` is external: " ++ d)
        else
          match dl d with
          | none => willNotProcessD ("The url of is not an image: " ++ d)
          | some _ => resolveLocal opts existsFs parentDir d
      else
        resolveLocal opts existsFs parentDir d

/-! ## Variant Generator (`createSizes` / `resize`, `main.js:309-358`) -/

/-- The image metadata the engine reads from `sharp(path).metadata()`. -/
structure Meta where
  width : Nat
  height : Nat
deriving DecidableEq, Repr

/-- One VariantSet entry, i.e. the object `resize` resolves with:
`{...meta, (...toFile info,) size, filename: outUrl}` restricted to the
fields the engine reads afterwards. -/
structure Variant where
  size : Nat
  width : Nat
  height : Nat
  filename : String
deriving DecidableEq, Repr

/-- Function `resize` (`main.js:319-358`), over collaborator oracles: `existsFs` is
`fs.existsSync`, and `backendInfo inPath size` the info object that
`sharp(inPath).resize({width: size, withoutEnlargement: true})...toFile(...)`
resolves with.  Returns `null` (`none`) when the requested size exceeds the
natural width.  When the sized output already exists on disk the entry
carries the *natural* metadata (`{...meta, filename, size}`); otherwise the
spread `{...meta, ...info, size, filename}` lets the backend info override
the natural width/height.  The webp-generation and `ensureOutDirExists` side
effects touch only the filesystem collaborator. -/
def resize (existsFs : String → Bool) (backendInfo : String → Nat → Meta)
    (paths : Paths) (meta : Meta) (size : Nat) : Option Variant :=
  if meta.width < size then none
  else if existsFs (paths.getResizePaths size).outPath then
    some { size := size, width := meta.width, height := meta.height,
           filename := (paths.getResizePaths size).outUrl }
  else
    some { size := size, width := (backendInfo paths.inPath size).width,
           height := (backendInfo paths.inPath size).height,
           filename := (paths.getResizePaths size).outUrl }

/-- First half of `createSizes` (`main.js:310-312`): the candidate size
list.  `Math.min()` of an empty `sizes` array is `Infinity`, which is
`> meta.width`, hence the `none` branch also falls back to `[meta.width]`. -/
def candidateSizes (opts : Options) (meta : Meta) : List Nat :=
  match opts.sizes.min? with
  | none => [meta.width]
  | some m => if meta.width < m then [meta.width] else opts.sizes

/-- Function `createSizes` (`main.js:309-317`): `metaOf` models
`sharp(paths.inPath).metadata()`; map `resize` over the candidate sizes, and
the `.filter(Boolean)` over the resolved array is `filterMap id` over the
`Option` results. -/
def createSizes (existsFs : String → Bool) (backendInfo : String → Nat → Meta)
    (opts : Options) (metaOf : String → Meta) (paths : Paths) : List Variant :=
  ((candidateSizes opts (metaOf paths.inPath)).map
    (resize existsFs backendInfo paths (metaOf paths.inPath))).filterMap id

/-! ## Output Formatter (`srcsetLine` / `srcsetLineWebp` / `getSrcset`,
`main.js:378-397`) -/

/-- JS `Array.prototype.map` with the index argument, `arr.map((s, i) => …)`,
starting the index at `k`. -/
def jsMapIdxFrom (f : Nat → α → β) : Nat → List α → List β
  | _, [] => []
  | k, a :: as => f k a :: jsMapIdxFrom f (k + 1) as

/-- JS `arr.map((s, i) => f s i)`. -/
def jsMapIdx (f : Nat → α → β) (l : List α) : List β := jsMapIdxFrom f 0 l

/-- JS `options.breakpoints[i]` interpolated into a template string:
out-of-range indexing yields `undefined`, which stringifies to
`"undefined"`. -/
def bpStr (breakpoints : List Nat) (i : Nat) : String :=
  match breakpoints[i]? with
  | some b => toString b
  | none => "undefined"

/-- Line fragment `s.filename.replace(pathSepPattern, "/")` (`main.js:378-381`): on the
POSIX separator this globally replaces `/` with `/`. -/
def replaceSep (s : String) : String :=
  ⟨s.data.map (fun c => if c == '/' then '/' else c)⟩

/-- Function `srcsetLine` (`main.js:380-381`). -/
def srcsetLine (opts : Options) (s : Variant) (i : Nat) : String :=
  replaceSep s.filename ++ " " ++ bpStr opts.breakpoints i ++ "w"

/-- Function `srcsetLineWebp` (`main.js:383-387`): the same line, then
`.replace("jpg", "webp").replace("png", "webp").replace("jpeg", "webp")` —
three first-occurrence string replacements over the whole line. -/
def srcsetLineWebp (opts : Options) (s : Variant) (i : Nat) : String :=
  replaceFirstS
    (replaceFirstS
      (replaceFirstS
        (replaceSep s.filename ++ " " ++ bpStr opts.breakpoints i ++ "w")
        "jpg" "webp")
      "png" "webp")
    "jpeg" "webp"

/-- Function `getSrcset` (`main.js:389-397`): join the per-variant lines with `","`
(`Array.prototype.join` with no argument) and wrap as ` tag='…' `.  The
callers always pass the already-`filter(Boolean)`ed array from `createSizes`,
so the inner `.filter(f => f)` is the identity here and `List Variant` holds
no `null`s by construction. -/
def getSrcset (opts : Options) (sizes : List Variant)
    (lineFn : Options → Variant → Nat → String) (tag : String) : String :=
  " " ++ tag ++ "='" ++
    String.intercalate "," (jsMapIdx (fun i s => lineFn opts s i) sizes) ++
    "' "

/-! ## Rewrite Orchestrator (`replaceInImg` / `replaceInComponent` /
`replaceImages`, `main.js:399-535`)

The asynchronous per-node work (`getProcessingPathsForNode`, `optimize`,
`createSizes`, `getBase64` / `getTrace`) reaches these functions only through
awaited collaborator calls, so each is passed in as an `Except String`
result: `.error` is a rejected promise / thrown error.  Control flow —
including which awaits sit inside a `try` block and which do not — is
transcribed from the source. -/

/-- Function `replaceInImg` (`main.js:466-486`).  Only the `optimize` call (and the
subsequent `insert`) sits inside the `try`; a rejection of
`getProcessingPathsForNode` itself propagates. -/
def replaceInImg (ed : List Char × Int) (node : Node)
    (decision : Except String Decision) (optimizeRes : Except String String) :
    Except String (List Char × Int) :=
  match decision with
  | Except.error e => Except.error e
  | Except.ok d =>
    if d.willNotProcess then Except.ok ed
    else
      match optimizeRes with
      | Except.error _ => Except.ok ed
      | Except.ok outUri =>
        Except.ok (insert ed.1 outUri.data
          ((getSrc node).headD emptyValue).start
          ((getSrc node).headD emptyValue).stop ed.2)

/-- Function `replaceInComponent` (`main.js:399-447`).  There is no `try`/`catch`
here: a rejection of the resolution, of `createSizes`, or of the placeholder
computation propagates to the caller.  `ratioFmt w h` models the JS
floating-point expression `(1 / (w / h)) * 100` as formatted into the
template string; `sizes[0]` on an empty array would throw a `TypeError`. -/
def replaceInComponent (ed : List Char × Int) (node : Node)
    (decision : Except String Decision)
    (createSizesRes : Except String (List Variant))
    (placeholderRes : Except String String)
    (ratioFmt : Nat → Nat → String) (opts : Options) :
    Except String (List Char × Int) :=
  match decision with
  | Except.error e => Except.error e
  | Except.ok d =>
    if d.willNotProcess then Except.ok ed
    else
      match createSizesRes with
      | Except.error e => Except.error e
      | Except.ok sizes =>
        match placeholderRes with
        | Except.error e => Except.error e
        | Except.ok base64 =>
          let s := ((getSrc node).headD emptyValue).start
          let e := ((getSrc node).headD emptyValue).stop
          let withBase64 := insert ed.1 base64.data s e ed.2
          let withSrcset := insert withBase64.1
            (getSrcset opts sizes srcsetLine "srcset").data (e + 1) (e + 2)
            withBase64.2
          match sizes.head? with
          | none => Except.error "TypeError: sizes[0] is undefined"
          | some v0 =>
            let withRatio := insert withSrcset.1
              (" ratio='" ++ ratioFmt v0.width v0.height ++ "%' ").data
              (e + 1) (e + 2) withSrcset.2
            if !opts.webp then Except.ok withRatio
            else
              Except.ok (insert withRatio.1
                (getSrcset opts sizes srcsetLineWebp "srcsetWebp").data
                (e + 1) (e + 2) withRatio.2)

/-- The parsed document, modelled as the sequence of nodes `svelte.walk`
enters, in document order (the parser and walker are external
collaborators). -/
abbrev Ast := List Node

/-- The walker callback of `replaceImages` (`main.js:505-519`): collect
`Element`/`Fragment`/`InlineComponent` nodes that are either an `img` (when
`optimizeAll`) or the configured component tag.  `estree-walker` guards
`if (node)`, so walking the `undefined` AST left by a parse failure visits
nothing. -/
def collectImageNodes (opts : Options) : Option Ast → List Node
  | none => []
  | some ns =>
    ns.filter (fun n =>
      (n.type == "Element" || n.type == "Fragment" ||
        n.type == "InlineComponent") &&
      ((opts.optimizeAll && n.name == "img") || n.name == opts.tagName))

/-- The collaborator results `replaceImages` consumes, per document and per
node. -/
structure Env where
  /-- Value of `path.resolve(options.sourceDir)`. -/
  sourceDirAbs : String
  /-- Result of `svelte.parse(content)`: the walk-order node list, or a parse error. -/
  parse : List Char → Except String Ast
  /-- Result of `await getProcessingPathsForNode(node, parentDir)`. -/
  decisionOf : Node → Except String Decision
  /-- Result of `await optimize(paths)` for an `img` node. -/
  optimizeOf : Node → Except String String
  /-- Result of `await createSizes(paths)` for a component node. -/
  createSizesOf : Node → Except String (List Variant)
  /-- Result of `await getBase64(...)` or `await getTrace(...)`, per `options.placeholder`. -/
  placeholderOf : Node → Except String String
  /-- Formatting of the `(1 / (width / height)) * 100` float. -/
  ratioFmt : Nat → Nat → String

/-- Function `replaceImages` (`main.js:488-535`).  The first guard is the
short-circuit: the regex test of `parentDir` against the resolved source dir
followed by a character class with a Kleene star holds iff `parentDir`
contains the resolved source dir as a substring (the starred class may match
zero characters), and the raw text must
contain `"<img"` or `"<Image"`.  A parse failure is caught (`ast` stays
`undefined`); any rejection inside the node reduce propagates to the
caller. -/
def replaceImages (opts : Options) (env : Env) (content : List Char)
    (parentDir : String) : Except String (List Char) :=
  if !(containsSubstr parentDir.data env.sourceDirAbs.data) ||
      (!(containsSubstr content "<img".data) &&
        !(containsSubstr content "<Image".data)) then
    Except.ok content
  else
    let ast? : Option Ast :=
      match env.parse content with
      | Except.ok a => some a
      | Except.error _ => none
    let imageNodes := collectImageNodes opts ast?
    if imageNodes.isEmpty then Except.ok content
    else
      match imageNodes.foldlM (fun ed node =>
        if node.name == "img" then
          replaceInImg ed node (env.decisionOf node) (env.optimizeOf node)
        else
          replaceInComponent ed node (env.decisionOf node)
            (env.createSizesOf node) (env.placeholderOf node)
            env.ratioFmt opts) (content, (0 : Int)) with
      | Except.error e => Except.error e
      | Except.ok processed => Except.ok processed.1

/-- Value of the default `options` object (`main.js:9-62`), restricted to the
fields of `Options`. -/
def defaultOptions : Options :=
  { optimizeAll := true
    imgTagExtensions := ["jpg", "jpeg", "png"]
    componentExtensions := []
    tagName := "Image"
    sizes := [400, 800, 1200]
    breakpoints := [375, 768, 1024]
    outputDir := "g/"
    publicDir := "./static/"
    sourceDir := "./src/"
    webp := true
    optimizeRemote := true }

/-!
# Claims
-/

/-- C1: one application of the Text Patcher's `insert` on a valid adjusted
range replaces exactly `[start+offset, end+offset)` of the current text with
the value — the text strictly before `start+offset` and strictly after
`end+offset` is byte-identical to the input, the spliced middle equals the
value, the length changes by `len(value) - (end - start)` — and the returned
offset is `offset + len(value) - (end - start)`; consequently a sequence of
non-overlapping edits in ascending start order applied from offset `0`
yields a final length of `originalLength + Σ (len(replacement_i) -
(end_i - start_i))`. -/
theorem C1_text_patcher :
    (∀ (c v : List Char) (s t : Nat) (o : Int),
      0 ≤ (s : Int) + o → s ≤ t → ((t : Int) + o).toNat ≤ c.length →
      (insert c v s t o).1.take ((s : Int) + o).toNat =
        c.take ((s : Int) + o).toNat ∧
      ((insert c v s t o).1.drop ((s : Int) + o).toNat).take v.length = v ∧
      (insert c v s t o).1.drop (((s : Int) + o).toNat + v.length) =
        c.drop (((t : Int) + o).toNat) ∧
      ((insert c v s t o).1.length : Int) =
        (c.length : Int) + v.length - ((t : Int) - (s : Int)) ∧
      (insert c v s t o).2 = o + v.length - ((t : Int) - (s : Int))) ∧
    (∀ (c : List Char) (edits : List EditOperation),
      edits.Chain' (fun a b => a.stop ≤ b.start) →
      (∀ e ∈ edits, e.start ≤ e.stop ∧ e.stop ≤ c.length) →
      ((applyEdits c edits).1.length : Int) =
        (c.length : Int) + (edits.map editDelta).sum) := by
  constructor
  · intro c v s t o h0 hst hlen
    exact ⟨insert_before_start h0 hst hlen, insert_middle h0 hst hlen,
      insert_suffix h0 hst hlen, insert_length h0 hst hlen, insert_offset⟩
  · intro c edits hchain hbnd
    have h := foldl_insert_spec edits c 0 c.length (by omega) hbnd hchain
      (fun e₀ _ => by positivity)
    have happ : applyEdits c edits =
        edits.foldl (fun ed e => insert ed.1 e.value e.start e.stop ed.2)
          (c, 0) := rfl
    rw [happ, h.1]
    omega

/-- Witness for C1 at a concrete input: content `"abcdef"`, replacing
`[1, 3)` by `"XY"` at offset `0`, then the same edit through `applyEdits`. -/
theorem C1_text_patcher_witness :
    (((insert "abcdef".data "XY".data 1 3 0).1.length : Int) =
      ("abcdef".data.length : Int) + ("XY".data.length : Int) -
        (((3 : Nat) : Int) - ((1 : Nat) : Int))) ∧
    ((applyEdits "abcdef".data [⟨1, 3, "XY".data⟩]).1.length : Int) =
      ("abcdef".data.length : Int) +
        ([⟨1, 3, "XY".data⟩].map editDelta).sum := by
  constructor
  · exact (C1_text_patcher.1 "abcdef".data "XY".data 1 3 0 (by decide)
      (by decide) (by decide)).2.2.2.1
  · exact C1_text_patcher.2 "abcdef".data [⟨1, 3, "XY".data⟩]
      (by simp) (by decide)

/-- C9: the extension gate accepts everything when the allow-list is empty,
and otherwise accepts exactly when the filename's final dot-separated
segment, compared case-insensitively, is a member of the list. -/
theorem C9_extension_gate :
    ∀ (filename : String) (exts : List String),
      (exts = [] → fileHasCorrectExtension filename exts = true) ∧
      (exts ≠ [] → (fileHasCorrectExtension filename exts = true ↔
        ∃ e ∈ exts,
          strToLower e = strToLower ((strSplitChar filename '.').getLast!))) := by
  intro filename exts
  constructor
  · rintro rfl
    rfl
  · intro hne
    unfold fileHasCorrectExtension
    rw [if_neg (by simp [hne])]
    simp [List.mem_map]

/-- Witness for C9: `"photo.JPG"` against the non-empty allow-list
`["jpg"]`. -/
theorem C9_extension_gate_witness :
    fileHasCorrectExtension "photo.JPG" ["jpg"] = true :=
  ((C9_extension_gate "photo.JPG" ["jpg"]).2 (by decide)).mpr
    ⟨"jpg", by decide, by decide⟩

/-- C10: a candidate node with no `src` attribute (or an absent attribute
list) yields the singleton empty value descriptor from `getSrc`, the
blank-src Skip from resolution, and no edit from either per-node rewriter:
the running `(content, offset)` pair is returned unchanged. -/
theorem C10_missing_src (node : Node) (opts : Options)
    (dl : String → Option String) (existsFs : String → Bool)
    (parentDir : String)
    (h : ∀ a ∈ node.attributes.getD [], a.name ≠ "src") :
    getSrc node = [emptyValue] ∧
    getProcessingPathsForNode opts dl existsFs node parentDir =
      willNotProcessD "The `src` is blank" ∧
    (∀ (ed : List Char × Int) (optimizeRes : Except String String),
      replaceInImg ed node
        (Except.ok (getProcessingPathsForNode opts dl existsFs node parentDir))
        optimizeRes = Except.ok ed) ∧
    (∀ (ed : List Char × Int) (cs : Except String (List Variant))
        (ph : Except String String) (rf : Nat → Nat → String),
      replaceInComponent ed node
        (Except.ok (getProcessingPathsForNode opts dl existsFs node parentDir))
        cs ph rf opts = Except.ok ed) := by
  have hfind : (node.attributes.getD []).find? (fun a => a.name == "src") =
      none := by
    apply List.find?_eq_none.mpr
    intro a ha
    simp [h a ha]
  have hsrc : getSrc node = [emptyValue] := by
    simp [getSrc, getProp, hfind]
  have hdec : getProcessingPathsForNode opts dl existsFs node parentDir =
      willNotProcessD "The `src` is blank" := by
    simp [getProcessingPathsForNode, hsrc, emptyValue]
  refine ⟨hsrc, hdec, ?_, ?_⟩
  · intro ed optimizeRes
    rw [hdec]
    rfl
  · intro ed cs ph rf
    rw [hdec]
    rfl

/-- Witness for C10: an `img` element with no attributes at all, under the
default options and empty collaborators. -/
theorem C10_missing_src_witness :
    getSrc ⟨"Element", "img", none⟩ = [emptyValue] ∧
    getProcessingPathsForNode defaultOptions (fun _ => none) (fun _ => false)
      ⟨"Element", "img", none⟩ "/project/src/routes" =
      willNotProcessD "The `src` is blank" := by
  have h := C10_missing_src ⟨"Element", "img", none⟩ defaultOptions
    (fun _ => none) (fun _ => false) "/project/src/routes" (by simp)
  exact ⟨h.1, h.2.1⟩

/-- C2: when the markup parser throws, `replaceImages` catches the failure
(`ast` stays `undefined`, the walk visits nothing, no image node is
collected) and returns the original source text for the whole document; no
error is propagated to the caller and no partial rewrite is produced. -/
theorem C2_parse_failure_returns_original (opts : Options) (env : Env)
    (content : List Char) (parentDir : String) (msg : String)
    (h : env.parse content = Except.error msg) :
    replaceImages opts env content parentDir = Except.ok content := by
  unfold replaceImages
  rw [h]
  simp [collectImageNodes]

/-- Collaborator environment whose parser always throws (for the C2
witness). -/
def envParseFail : Env :=
  { sourceDirAbs := "/project/src"
    parse := fun _ => Except.error "ParseError: unexpected token"
    decisionOf := fun _ => Except.ok (willNotProcessD "skip")
    optimizeOf := fun _ => Except.ok ""
    createSizesOf := fun _ => Except.ok []
    placeholderOf := fun _ => Except.ok ""
    ratioFmt := fun _ _ => "100" }

/-- Witness for C2: a document containing an (unparseable) `img` tag inside
the source tree comes back verbatim. -/
theorem C2_parse_failure_witness :
    replaceImages defaultOptions envParseFail "<img src=a.jpg>".data
      "/project/src/routes" = Except.ok "<img src=a.jpg>".data :=
  C2_parse_failure_returns_original defaultOptions envParseFail
    "<img src=a.jpg>".data "/project/src/routes"
    "ParseError: unexpected token" rfl

section VariantLemmas

variable {existsFs : String → Bool} {backendInfo : String → Nat → Meta}
variable {paths : Paths} {meta : Meta}

lemma resize_eq_some {size : Nat} {v : Variant}
    (h : resize existsFs backendInfo paths meta size = some v) :
    v.size = size ∧ ¬ meta.width < size := by
  unfold resize at h
  split at h
  · exact absurd h (by simp)
  next hw =>
    split at h
    · cases h
      exact ⟨rfl, hw⟩
    · cases h
      exact ⟨rfl, hw⟩

lemma resize_eq_none {size : Nat} (h : meta.width < size) :
    resize existsFs backendInfo paths meta size = none := by
  unfold resize
  rw [if_pos h]

lemma resize_le_some {size : Nat} (h : ¬ meta.width < size) :
    ∃ v, resize existsFs backendInfo paths meta size = some v ∧
      v.size = size := by
  unfold resize
  rw [if_neg h]
  by_cases hc : existsFs (paths.getResizePaths size).outPath
  · exact ⟨_, by rw [if_pos hc], rfl⟩
  · exact ⟨_, by rw [if_neg hc], rfl⟩

lemma filterMap_resize_sizes :
    ∀ szs : List Nat,
      ((szs.map (resize existsFs backendInfo paths meta)).filterMap id).map
          (·.size) =
        szs.filter (fun s => decide (s ≤ meta.width))
  | [] => rfl
  | s :: ss => by
    by_cases hw : meta.width < s
    · rw [List.map_cons, List.filterMap_cons, List.filter_cons]
      simp only [resize_eq_none hw, id]
      rw [if_neg (by simpa using by omega), filterMap_resize_sizes ss]
    · obtain ⟨v, hv, hsz⟩ := @resize_le_some existsFs backendInfo paths meta s hw
      rw [List.map_cons, List.filterMap_cons, List.filter_cons]
      simp only [hv, id]
      rw [if_pos (by simpa using by omega), List.map_cons,
        filterMap_resize_sizes ss, hsz]

end VariantLemmas

/-- C6: no configured target size strictly greater than the source's natural
width appears in the VariantSet — the per-size `resize` step yields `null`
for such a size (it is dropped, not replaced) — and in the non-fallback case
the VariantSet's sizes are exactly the configured sizes with the oversized
ones filtered out, in order. -/
theorem C6_no_upscale (existsFs : String → Bool)
    (backendInfo : String → Nat → Meta) (opts : Options)
    (metaOf : String → Meta) (paths : Paths) :
    (∀ v ∈ createSizes existsFs backendInfo opts metaOf paths,
      v.size ≤ (metaOf paths.inPath).width) ∧
    (∀ size : Nat, (metaOf paths.inPath).width < size →
      resize existsFs backendInfo paths (metaOf paths.inPath) size = none) ∧
    (∀ m : Nat, opts.sizes.min? = some m →
      m ≤ (metaOf paths.inPath).width →
      (createSizes existsFs backendInfo opts metaOf paths).map (·.size) =
        opts.sizes.filter
          (fun s => decide (s ≤ (metaOf paths.inPath).width))) := by
  refine ⟨?_, fun _ h => resize_eq_none h, ?_⟩
  · intro v hv
    unfold createSizes at hv
    obtain ⟨x, hxmem, hx⟩ := List.mem_filterMap.mp hv
    obtain ⟨a, hamem, ha⟩ := List.mem_map.mp hxmem
    have hres : resize existsFs backendInfo paths (metaOf paths.inPath) a =
        some v := by
      rw [ha]
      exact hx
    have := resize_eq_some hres
    omega
  · intro m hmin hle
    have hcand : candidateSizes opts (metaOf paths.inPath) = opts.sizes := by
      unfold candidateSizes
      rw [hmin]
      simp only []
      rw [if_neg (by omega)]
    unfold createSizes
    rw [hcand]
    exact filterMap_resize_sizes opts.sizes

/-- Witness for C6: natural width `1000` against the default sizes — `1200`
is dropped by `resize` and the VariantSet sizes are `[400, 800]`. -/
theorem C6_no_upscale_witness :
    resize (fun _ => true) (fun _ s => ⟨s, s⟩)
      (getPathsObject defaultOptions "fuji.jpg") ⟨1000, 700⟩ 1200 = none ∧
    (createSizes (fun _ => true) (fun _ s => ⟨s, s⟩) defaultOptions
        (fun _ => ⟨1000, 700⟩) (getPathsObject defaultOptions "fuji.jpg")).map
      (·.size) =
      defaultOptions.sizes.filter (fun s => decide (s ≤ 1000)) := by
  have h := C6_no_upscale (fun _ => true) (fun _ s => ⟨s, s⟩) defaultOptions
    (fun _ => ⟨1000, 700⟩) (getPathsObject defaultOptions "fuji.jpg")
  exact ⟨h.2.1 1200 (by decide), h.2.2 400 (by decide) (by decide)⟩

/-- C7: when the smallest configured size strictly exceeds the natural
width, `createSizes` falls back to exactly one variant at the natural width
(never an empty VariantSet); the backend hypothesis says resizing to the
natural width reports that width back, which holds for the cached branch
unconditionally. -/
theorem C7_small_image_fallback (existsFs : String → Bool)
    (backendInfo : String → Nat → Meta) (opts : Options)
    (metaOf : String → Meta) (paths : Paths) (m : Nat)
    (hmin : opts.sizes.min? = some m)
    (hlt : (metaOf paths.inPath).width < m)
    (hb : (backendInfo paths.inPath (metaOf paths.inPath).width).width =
      (metaOf paths.inPath).width) :
    (createSizes existsFs backendInfo opts metaOf paths).length = 1 ∧
    ∀ v ∈ createSizes existsFs backendInfo opts metaOf paths,
      v.size = (metaOf paths.inPath).width ∧
      v.width = (metaOf paths.inPath).width := by
  have hcand : candidateSizes opts (metaOf paths.inPath) =
      [(metaOf paths.inPath).width] := by
    unfold candidateSizes
    rw [hmin]
    simp only []
    rw [if_pos hlt]
  by_cases hc : existsFs
      ((paths.getResizePaths (metaOf paths.inPath).width).outPath)
  · have hres : resize existsFs backendInfo paths (metaOf paths.inPath)
        (metaOf paths.inPath).width =
        some { size := (metaOf paths.inPath).width
               width := (metaOf paths.inPath).width
               height := (metaOf paths.inPath).height
               filename :=
                 (paths.getResizePaths (metaOf paths.inPath).width).outUrl } := by
      unfold resize
      rw [if_neg (by omega), if_pos hc]
    unfold createSizes
    rw [hcand]
    simp [hres]
  · have hres : resize existsFs backendInfo paths (metaOf paths.inPath)
        (metaOf paths.inPath).width =
        some { size := (metaOf paths.inPath).width
               width := (backendInfo paths.inPath (metaOf paths.inPath).width).width
               height := (backendInfo paths.inPath (metaOf paths.inPath).width).height
               filename :=
                 (paths.getResizePaths (metaOf paths.inPath).width).outUrl } := by
      unfold resize
      rw [if_neg (by omega), if_neg hc]
    unfold createSizes
    rw [hcand]
    simp [hres, hb]

/-- Witness for C7: Scenario E — smallest configured size `400`, natural
width `300`: one entry at size and width `300`. -/
theorem C7_small_image_fallback_witness :
    (createSizes (fun _ => true) (fun _ s => ⟨s, s⟩) defaultOptions
      (fun _ => ⟨300, 200⟩) (getPathsObject defaultOptions "fuji.jpg")).length
      = 1 ∧
    ∀ v ∈ createSizes (fun _ => true) (fun _ s => ⟨s, s⟩) defaultOptions
        (fun _ => ⟨300, 200⟩) (getPathsObject defaultOptions "fuji.jpg"),
      v.size = 300 ∧ v.width = 300 :=
  C7_small_image_fallback (fun _ => true) (fun _ s => ⟨s, s⟩) defaultOptions
    (fun _ => ⟨300, 200⟩) (getPathsObject defaultOptions "fuji.jpg") 400
    (by decide) (by decide) (by decide)

lemma jsMapIdxFrom_getElem? (f : Nat → α → β) :
    ∀ (l : List α) (k i : Nat),
      (jsMapIdxFrom f k l)[i]? = (l[i]?).map (fun a => f (k + i) a)
  | [], _, _ => by simp [jsMapIdxFrom]
  | a :: as, k, 0 => by simp [jsMapIdxFrom]
  | a :: as, k, i + 1 => by
    have := jsMapIdxFrom_getElem? f as (k + 1) i
    simp only [jsMapIdxFrom, List.getElem?_cons_succ, this]
    have harith : k + 1 + i = k + (i + 1) := by omega
    rw [harith]

lemma jsMapIdxFrom_length (f : Nat → α → β) :
    ∀ (l : List α) (k : Nat), (jsMapIdxFrom f k l).length = l.length
  | [], _ => rfl
  | _ :: as, k => by
    simp [jsMapIdxFrom, jsMapIdxFrom_length f as (k + 1)]

/-- C8: the formatted `srcset` value joins one entry per variant with `","`
in VariantSet order, the `i`-th entry pairing the `i`-th variant's URL with
the `i`-th configured breakpoint (neither list reordered); Scenario A —
default sizes/breakpoints, natural width `1000` — produces the VariantSet
`[400, 800]` and exactly `srcset='g/fuji-400.jpg 375w,g/fuji-800.jpg 768w'`,
with no `1200`/`1024` entry. -/
theorem C8_srcset_pairing :
    (∀ (opts : Options) (vs : List Variant) (i : Nat),
      (jsMapIdx (fun i s => srcsetLine opts s i) vs)[i]? =
        (vs[i]?).map (fun s =>
          replaceSep s.filename ++ " " ++ bpStr opts.breakpoints i ++ "w")) ∧
    (∀ (opts : Options) (vs : List Variant),
      (jsMapIdx (fun i s => srcsetLine opts s i) vs).length = vs.length) ∧
    (∀ (opts : Options) (vs : List Variant) (tag : String),
      getSrcset opts vs srcsetLine tag =
        " " ++ tag ++ "='" ++
          String.intercalate ","
            (jsMapIdx (fun i s => srcsetLine opts s i) vs) ++ "' ") ∧
    ((createSizes (fun _ => true) (fun _ s => ⟨s, s⟩) defaultOptions
        (fun _ => ⟨1000, 700⟩)
        (getPathsObject defaultOptions "fuji.jpg")).map
          (fun v => (v.size, v.filename)) =
      [(400, "g/fuji-400.jpg"), (800, "g/fuji-800.jpg")]) ∧
    (getSrcset defaultOptions
        (createSizes (fun _ => true) (fun _ s => ⟨s, s⟩) defaultOptions
          (fun _ => ⟨1000, 700⟩) (getPathsObject defaultOptions "fuji.jpg"))
        srcsetLine "srcset" =
      " srcset='g/fuji-400.jpg 375w,g/fuji-800.jpg 768w' ") := by
  refine ⟨?_, ?_, ?_, ?_, ?_⟩
  · intro opts vs i
    have := jsMapIdxFrom_getElem? (fun i s => srcsetLine opts s i) vs 0 i
    simpa [jsMapIdx, srcsetLine] using this
  · intro opts vs
    exact jsMapIdxFrom_length _ vs 0
  · intro opts vs tag
    rfl
  · decide
  · decide

/-- C3 evaluated at the failing input: a variant URL whose base name contains
the substring `"jpg"` — the alternate-format line replaces the *first*
occurrence, corrupting the base name (`g/webp-photo.webp`), instead of
rewriting only the trailing extension (`g/jpg-photo.webp`). -/
theorem C3_webp_rewrites_basename :
    srcsetLineWebp defaultOptions ⟨400, 1000, 700, "g/jpg-photo.png"⟩ 0 =
      "g/webp-photo.webp 375w" ∧
    srcsetLineWebp defaultOptions ⟨400, 1000, 700, "g/jpg-photo.png"⟩ 0 ≠
      "g/jpg-photo.webp 375w" := by
  constructor <;> decide

/-- Component node used in the C4 counterexample. -/
def componentNode : Node :=
  ⟨"InlineComponent", "Image",
    some [⟨"src", [⟨some "Text", some "a.png", 12, 17⟩]⟩]⟩

/-- C4 is false as stated: a backend failure during a component node's
variant generation is *not* caught — `replaceInComponent` has no
`try`/`catch`, so the rejection propagates and the caller observes the
error instead of the unchanged text. -/
theorem C4_counterexample_component_error_propagates :
    replaceInComponent ("<Image src=a.png/>".data, 0) componentNode
      (Except.ok ⟨false, none, none⟩)
      (Except.error "BackendProcessingError")
      (Except.ok "data:image/png;base64,xyz")
      (fun _ _ => "100") defaultOptions =
      Except.error "BackendProcessingError" := rfl

/-- C4 as amended: for plain `img` nodes a failure of the optimize/format
step after successful resolution is caught locally (unchanged
`(content, offset)`, no error to the caller), and a Skip decision leaves
either node kind unchanged; but a failure during a component node's variant
generation propagates to the caller. -/
theorem C4_amended_error_recovery :
    (∀ (ed : List Char × Int) (node : Node) (d : Decision) (msg : String),
      d.willNotProcess = false →
      replaceInImg ed node (Except.ok d) (Except.error msg) = Except.ok ed) ∧
    (∀ (ed : List Char × Int) (node : Node) (d : Decision)
        (optimizeRes : Except String String),
      d.willNotProcess = true →
      replaceInImg ed node (Except.ok d) optimizeRes = Except.ok ed) ∧
    (∀ (ed : List Char × Int) (node : Node) (d : Decision)
        (cs : Except String (List Variant)) (ph : Except String String)
        (rf : Nat → Nat → String) (opts : Options),
      d.willNotProcess = true →
      replaceInComponent ed node (Except.ok d) cs ph rf opts =
        Except.ok ed) ∧
    (∀ (ed : List Char × Int) (node : Node) (d : Decision) (msg : String)
        (ph : Except String String) (rf : Nat → Nat → String)
        (opts : Options),
      d.willNotProcess = false →
      replaceInComponent ed node (Except.ok d) (Except.error msg) ph rf
        opts = Except.error msg) := by
  refine ⟨?_, ?_, ?_, ?_⟩
  · intro ed node d msg h
    simp [replaceInImg, h]
  · intro ed node d optimizeRes h
    simp [replaceInImg, h]
  · intro ed node d cs ph rf opts h
    simp [replaceInComponent, h]
  · intro ed node d msg ph rf opts h
    simp [replaceInComponent, h]

/-- Witness for the amended C4: an optimize failure on an `img` node leaves
the running pair unchanged. -/
theorem C4_amended_error_recovery_witness :
    replaceInImg ("<img src=a.jpg>".data, 0) ⟨"Element", "img", none⟩
      (Except.ok ⟨false, none, none⟩) (Except.error "sharp failed") =
      Except.ok ("<img src=a.jpg>".data, 0) :=
  C4_amended_error_recovery.1 ("<img src=a.jpg>".data, 0)
    ⟨"Element", "img", none⟩ ⟨false, none, none⟩ "sharp failed" rfl

/-- Options for the C5 evaluation (source dir without trailing slash). -/
def remoteOpts : Options := { defaultOptions with sourceDir := "./src" }

/-- Remote `img` node for the C5 evaluation. -/
def remoteNode : Node :=
  ⟨"Element", "img",
    some [⟨"src", [⟨some "Text", some "https://example.com/a.png", 10, 35⟩]⟩]⟩

/-- Download oracle for C5: the fetch of the URL succeeds and stores
`4da6.png` (an image content type). -/
def remoteDl : String → Option String :=
  fun u => if u == "https://example.com/a.png" then some "4da6.png" else none

/-- Filesystem oracle for C5: exactly the downloaded file exists, under the
source dir where `downloadImage` saved it. -/
def remoteFs : String → Bool := fun p => p == "./src/4da6.png"

/-- C5 evaluated at the failing input: the download collaborator succeeds
(an image content type yields a local filename), yet resolution ignores the
downloaded filename (`removedDomainSlash` is never used) and resolves the
raw URL against the filesystem, reporting the "file does not exist" Skip
instead of `Process`. -/
theorem C5_downloaded_file_ignored :
    downloadImage none "image/png" "4da6" = some "4da6.png" ∧
    remoteDl "https://example.com/a.png" = some "4da6.png" ∧
    remoteFs "./src/4da6.png" = true ∧
    (getProcessingPathsForNode remoteOpts remoteDl remoteFs remoteNode
      "/project/src/routes").willNotProcess = true ∧
    (getProcessingPathsForNode remoteOpts remoteDl remoteFs remoteNode
      "/project/src/routes").reason =
      some "The image file does not exist: ./src/https://example.com/a.png" := by
  refine ⟨by decide, by decide, by decide, ?_, ?_⟩ <;> decide

end SvelteImage
